import Mathlib

/-!
# Verification of the krawlet-js HTTP request pipeline

Shallow embedding of `src/http-client.ts` and `src/error.ts` from the
Twijn/krawlet-js client library, together with proofs of the specified
properties of the request pipeline: configuration defaulting, header
construction, URL query building, rate-limit extraction, error
classification and the retry loop.

Conventions of the embedding:
* TypeScript `number` is modelled as `Int` (all numbers involved are
  integral); JavaScript `NaN` produced by `parseInt` is modelled as
  `Option.none`.
* `undefined` optional fields are `Option`.
* A thrown JavaScript exception is a value of type `Thrown`.
* The nondeterministic outcomes of successive `fetch` calls are supplied
  to the request loop as a list `List FetchOutcome`, one entry consumed
  per network attempt.
-/

namespace Krawlet

/-! ## Configuration (`HttpClientConfig` and its resolution in the constructor) -/

/-- `HttpClientConfig` as the user supplies it: every field but `baseUrl`
optional (`interface HttpClientConfig`, http-client.ts lines 7-22). -/
structure HttpClientConfig where
  baseUrl : String
  apiKey : Option String := none
  timeout : Option Int := none
  headers : Option (String → Option String) := none
  enableRetry : Option Bool := none
  maxRetries : Option Int := none
  retryDelay : Option Int := none

/-- The fully resolved configuration stored in `this.config`. -/
structure ResolvedConfig where
  baseUrl : String
  apiKey : String
  timeout : Int
  headers : String → Option String
  enableRetry : Bool
  maxRetries : Int
  retryDelay : Int

/-- JavaScript `x || d` for an optional number: `undefined`, `0` (and `NaN`,
not representable here) are falsy. -/
def jsOrNum (x : Option Int) (d : Int) : Int :=
  match x with
  | none => d
  | some v => if v = 0 then d else v

/-- JavaScript `x || d` for an optional string: `undefined` and `''` are falsy. -/
def jsOrStr (x : Option String) (d : String) : String :=
  match x with
  | none => d
  | some v => if v = "" then d else v

/-- The empty headers record `{}`. -/
def emptyHeaders : String → Option String := fun _ => none

/-- The `HttpClient` constructor (http-client.ts lines 47-57): fills every
unset or falsy field with its default; `enableRetry` is
`config.enableRetry !== false`. -/
def resolveConfig (config : HttpClientConfig) : ResolvedConfig where
  baseUrl := config.baseUrl
  apiKey := jsOrStr config.apiKey ""
  timeout := jsOrNum config.timeout 30000
  headers := config.headers.getD emptyHeaders
  enableRetry := config.enableRetry ≠ some false
  maxRetries := jsOrNum config.maxRetries 3
  retryDelay := jsOrNum config.retryDelay 1000

/-! ## `KrawletError` (error.ts) -/

/-- The error envelope `ErrorResponse` as far as `handleErrorResponse`
reads it: `error.code`, `error.message`, `error.details`,
`meta.requestId`, plus the (opaque) full body kept in `response`. -/
structure ErrInfo where
  code : String
  message : String
  details : Option String := none
deriving DecidableEq

structure MetaInfo where
  requestId : Option String := none
deriving DecidableEq

/-- The parsed JSON body of a response, as the union of the shapes the
client reads from it.  `success` is the discriminant; `data` is the
(opaque, stringified) payload of a success envelope; `error`/`meta` are
the parts `handleErrorResponse` dereferences (absent fields are `none`,
modelling `undefined`). -/
structure Envelope where
  success : Bool
  data : Option String := none
  error : Option ErrInfo := none
  meta : Option MetaInfo := none
deriving DecidableEq

/-- `KrawletError` (error.ts lines 6-38). -/
structure KrawletError where
  message : String
  code : String
  statusCode : Int
  requestId : Option String := none
  details : Option String := none
  response : Option Envelope := none
deriving DecidableEq

/-- `isClientError()` (error.ts lines 43-45): `statusCode >= 400 && statusCode < 500`. -/
def KrawletError.isClientError (e : KrawletError) : Bool :=
  decide (400 ≤ e.statusCode ∧ e.statusCode < 500)

/-- `isServerError()` (error.ts lines 50-52): `statusCode >= 500`. -/
def KrawletError.isServerError (e : KrawletError) : Bool :=
  decide (500 ≤ e.statusCode)

/-- `isRateLimitError()` (error.ts lines 57-59):
`statusCode === 429 || code === 'RATE_LIMIT_EXCEEDED'`. -/
def KrawletError.isRateLimitError (e : KrawletError) : Bool :=
  decide (e.statusCode = 429 ∨ e.code = "RATE_LIMIT_EXCEEDED")

/-- Any value thrown inside the request loop: either a `KrawletError` or a
plain JavaScript `Error` identified by its `name` and `message`
(transport failures, abort errors, JSON `SyntaxError`s, `TypeError`s). -/
inductive Thrown where
  | krawlet (e : KrawletError)
  | jsError (name message : String)
deriving DecidableEq

/-! ## `parseInt` and rate-limit extraction -/

/-- Decimal digit value of a character, if it is one. -/
def digitVal (c : Char) : Option Nat :=
  if 48 ≤ c.toNat ∧ c.toNat ≤ 57 then some (c.toNat - 48) else none

/-- Reads a maximal run of leading decimal digits; `none` when there is
none at all (JavaScript `NaN`). -/
def readDigits : List Char → Option Nat → Option Nat
  | [], acc => acc
  | c :: rest, acc =>
    match digitVal c with
    | some d => readDigits rest (some ((acc.getD 0) * 10 + d))
    | none => acc

/-- JavaScript whitespace accepted by `parseInt` (the common cases). -/
def isJsWs (c : Char) : Bool :=
  c = ' ' ∨ c = '\t' ∨ c = '\n' ∨ c = '\r'

/-- `parseInt(s, 10)`: skip leading whitespace, optional sign, maximal
digit run, trailing junk ignored; `none` models `NaN`. -/
def jsParseInt (s : String) : Option Int :=
  let cs := s.data.dropWhile isJsWs
  match cs with
  | '-' :: rest => (readDigits rest none).map fun n => -(n : Int)
  | '+' :: rest => (readDigits rest none).map fun n => (n : Int)
  | _ => (readDigits cs none).map fun n => (n : Int)

/-- The stored rate-limit snapshot.  Each field is the result of
`parseInt` on the corresponding header, `none` standing for `NaN`. -/
structure RateLimit where
  limit : Option Int
  remaining : Option Int
  reset : Option Int
deriving DecidableEq

/-- The three rate-limit response headers, each `none` when absent
(`headers.get` returns `null`). -/
structure RlHeaders where
  limit : Option String := none
  remaining : Option String := none
  reset : Option String := none

/-- JavaScript truthiness of `headers.get(...)`: non-null and non-empty. -/
def hdrTruthy (h : Option String) : Bool :=
  match h with
  | none => false
  | some s => s != ""

/-- `extractRateLimit` (http-client.ts lines 168-180): when all three
headers are truthy, overwrite the snapshot with their `parseInt` values;
otherwise leave it unchanged. -/
def extractRateLimit (hs : RlHeaders) (prev : Option RateLimit) : Option RateLimit :=
  if hdrTruthy hs.limit ∧ hdrTruthy hs.remaining ∧ hdrTruthy hs.reset then
    some { limit := jsParseInt (hs.limit.getD "")
           remaining := jsParseInt (hs.remaining.getD "")
           reset := jsParseInt (hs.reset.getD "") }
  else prev

/-! ## Fetch outcomes and error-response handling -/

/-- One HTTP response, as far as the pipeline reads it: status,
status text, the three rate-limit headers, and the result of
`response.json()` (`none` when the body is not valid JSON). -/
structure HttpResponse where
  status : Int
  statusText : String := ""
  rlHeaders : RlHeaders := {}
  body : Option Envelope := none

/-- `response.ok`: status in [200, 300). -/
def HttpResponse.ok (r : HttpResponse) : Bool :=
  200 ≤ r.status ∧ r.status < 300

/-- The outcome of one `fetch` call: either a response arrives, or the
call itself rejects (timeout abort or network failure) with a JavaScript
error of the given `name` and `message`. -/
inductive FetchOutcome where
  | response (r : HttpResponse)
  | transportError (name message : String)

/-- `handleErrorResponse` (http-client.ts lines 185-206), as the error it
throws for a non-2xx response.  A body that is not valid JSON yields the
synthesized `UNKNOWN_ERROR`; a parsed body whose `error` or `meta` field
is absent makes the property accesses `errorData.error.message` /
`errorData.meta.requestId` throw a `TypeError`. -/
def handleErrorResponse (r : HttpResponse) : Thrown :=
  match r.body with
  | none =>
    .krawlet { message := "HTTP " ++ toString r.status ++ ": " ++ r.statusText
               code := "UNKNOWN_ERROR"
               statusCode := r.status }
  | some env =>
    match env.error, env.meta with
    | some ei, some m =>
      .krawlet { message := ei.message
                 code := ei.code
                 statusCode := r.status
                 requestId := m.requestId
                 details := ei.details
                 response := some env }
    | _, _ => .jsError "TypeError" "Cannot read properties of undefined"

/-- Substring test on strings (for `error.message.includes('fetch')`). -/
def strContains (hay needle : String) : Bool :=
  decide (needle.data <:+: hay.data)

/-- `shouldRetry` (http-client.ts lines 211-223). -/
def shouldRetry (t : Thrown) : Bool :=
  match t with
  | .krawlet e => e.isServerError || e.isRateLimitError
  | .jsError name message => name == "AbortError" || strContains message "fetch"

/-! ## The request loop -/

/-- Result of one run of `request`: success envelope, thrown error, or
`fuelOut` when the supplied list of fetch outcomes was exhausted while
the loop still wanted another attempt (a model artifact, excluded by
hypothesis in the theorems). -/
inductive LoopResult where
  | ok (e : Envelope)
  | err (t : Thrown)
  | fuelOut
deriving DecidableEq

/-- Observable trace of one `request` call: its result, the final
rate-limit snapshot, the list of back-off sleeps performed (in order,
milliseconds), and the number of network attempts made. -/
structure RunResult where
  result : LoopResult
  rateLimit : Option RateLimit
  delays : List Int
  attempts : Nat
deriving DecidableEq

/-- `calculateRetryDelay` (http-client.ts lines 228-230):
`retryDelay * 2 ** attempt`. -/
def calculateRetryDelay (retryDelay : Int) (attempt : Nat) : Int :=
  retryDelay * 2 ^ attempt

/-- Processing of one arrived response inside the `try` block
(http-client.ts lines 92-100): extract rate-limit headers, then either
throw for non-2xx (`handleErrorResponse`), throw a JSON `SyntaxError`
when a 2xx body does not parse, or return the parsed envelope. -/
def processResponse (r : HttpResponse) : Except Thrown Envelope :=
  if r.ok then
    match r.body with
    | some env => .ok env
    | none => .error (.jsError "SyntaxError" "Unexpected end of JSON input")
  else
    .error (handleErrorResponse r)

/-- The rate-limit snapshot after one attempt: a response always goes
through `extractRateLimit`; a rejected `fetch` leaves it untouched. -/
def stepRateLimit (o : FetchOutcome) (rl : Option RateLimit) : Option RateLimit :=
  match o with
  | .response r => extractRateLimit r.rlHeaders rl
  | .transportError _ _ => rl

/-- What one attempt produces: the parsed envelope, or the thrown error. -/
def stepResult : FetchOutcome → Except Thrown Envelope
  | .response r => processResponse r
  | .transportError name message => .error (.jsError name message)

/-- The `catch` block's decision (http-client.ts lines 101-117): `true`
when the failure leads to a back-off retry, `false` when it is rethrown.
A client error that is not a rate-limit error is rethrown at once;
otherwise a retry happens when attempts remain and `shouldRetry` holds. -/
def catchRetry (t : Thrown) (attempt : Nat) (maxAttempts : Int) : Bool :=
  match t with
  | .krawlet e =>
    if e.isClientError ∧ ¬ e.isRateLimitError then false
    else decide ((attempt : Int) < maxAttempts - 1) && shouldRetry t
  | .jsError _ _ => decide ((attempt : Int) < maxAttempts - 1) && shouldRetry t

/-- The `while` loop of `request` (http-client.ts lines 73-122).
`attempt` is the loop variable; one element of `outcomes` is consumed
per network attempt; `delays` accumulates the back-off sleeps and
`attempts` of the result counts the network attempts made. -/
def requestLoop (maxAttempts retryDelay : Int) (attempt : Nat)
    (rl : Option RateLimit) (delays : List Int) (lastError : Option Thrown) :
    List FetchOutcome → RunResult
  | [] =>
    if (attempt : Int) < maxAttempts then
      { result := .fuelOut, rateLimit := rl, delays := delays, attempts := delays.length }
    else
      { result := .err ((lastError.getD (.jsError "Error" "Request failed after retries")))
        rateLimit := rl, delays := delays, attempts := delays.length }
  | o :: rest =>
    if (attempt : Int) < maxAttempts then
      match stepResult o with
      | .ok env =>
        { result := .ok env, rateLimit := stepRateLimit o rl, delays := delays
          attempts := delays.length + 1 }
      | .error t =>
        if catchRetry t attempt maxAttempts then
          requestLoop maxAttempts retryDelay (attempt + 1) (stepRateLimit o rl)
            (delays ++ [calculateRetryDelay retryDelay attempt]) (some t) rest
        else
          { result := .err t, rateLimit := stepRateLimit o rl, delays := delays
            attempts := delays.length + 1 }
    else
      { result := .err ((lastError.getD (.jsError "Error" "Request failed after retries")))
        rateLimit := rl, delays := delays, attempts := delays.length }

/-- `request` (http-client.ts lines 69-122): `maxAttempts` is
`maxRetries + 1` when retry is enabled, else 1; the loop starts at
`attempt = 0` with the client's current rate-limit snapshot `rl0`. -/
def request (cfg : ResolvedConfig) (rl0 : Option RateLimit)
    (outcomes : List FetchOutcome) : RunResult :=
  let maxAttempts : Int := if cfg.enableRetry then cfg.maxRetries + 1 else 1
  requestLoop maxAttempts cfg.retryDelay 0 rl0 [] none outcomes

/-- `getRateLimit` (http-client.ts lines 62-64): the stored snapshot. -/
def getRateLimit (run : RunResult) : Option RateLimit :=
  run.rateLimit

/-! ## `buildHeaders` (http-client.ts lines 147-163)

A JavaScript `Record<string, string>` is modelled extensionally as a
function `String → Option String`; object spread `{...a, ...b}` makes
`b`'s entries win. -/

/-- Object spread `{...a, ...b}`: `b`'s entry wins when present. -/
def overlay (a b : String → Option String) : String → Option String :=
  fun k =>
    match b k with
    | some v => some v
    | none => a k

/-- Property assignment `h[k] = v`. -/
def recSet (m : String → Option String) (k v : String) : String → Option String :=
  fun k' => if k' = k then some v else m k'

/-- The literal `{'Content-Type': 'application/json'}`. -/
def contentTypeOnly : String → Option String :=
  fun k => if k = "Content-Type" then some "application/json" else none

/-- `buildHeaders(customHeaders?, apiKey?)`: start from the content-type
literal, spread the client default headers, spread the per-call headers,
then set `Authorization: Bearer <key>` when `apiKey || config.apiKey` is
truthy. -/
def buildHeaders (cfg : ResolvedConfig)
    (customHeaders : Option (String → Option String)) (apiKey : Option String) :
    String → Option String :=
  let headers := overlay (overlay contentTypeOnly cfg.headers) (customHeaders.getD emptyHeaders)
  let key := jsOrStr apiKey cfg.apiKey
  if key ≠ "" then recSet headers "Authorization" ("Bearer " ++ key) else headers

/-! ## `buildUrl` query string (http-client.ts lines 127-142)

Strings here are modelled as lists of Unicode scalar values (`List Nat`),
the query string likewise.  `url.searchParams.append` / `url.toString()`
serialize with the `application/x-www-form-urlencoded` serializer: each
pair as `key=value` joined by `&`, keys and values UTF-8 encoded and then
percent-encoded with space as `+`. -/

/-- A query-parameter value: `string | number | boolean | undefined`. -/
inductive PVal where
  | pstr (s : List Nat)
  | pnum (n : Int)
  | pbool (b : Bool)
  | pundef
deriving DecidableEq

/-- Codepoints of the decimal representation of a natural number. -/
def natDigits (n : Nat) : List Nat :=
  if n < 10 then [48 + n] else natDigits (n / 10) ++ [48 + n % 10]
decreasing_by exact Nat.div_lt_self (by omega) (by omega)

/-- `String(value)` for the values a query parameter can hold. -/
def jsStringOf : PVal → List Nat
  | .pstr s => s
  | .pnum n => if n < 0 then 45 :: natDigits n.natAbs else natDigits n.natAbs
  | .pbool true => [116, 114, 117, 101]
  | .pbool false => [102, 97, 108, 115, 101]
  | .pundef => [117, 110, 100, 101, 102, 105, 110, 101, 100]

/-- The `forEach` filter of `buildUrl`: drop `undefined` values, stringify
the rest, in iteration order. -/
def definedParams (params : List (List Nat × PVal)) : List (List Nat × List Nat) :=
  params.filterMap fun p =>
    match p.2 with
    | .pundef => none
    | v => some (p.1, jsStringOf v)

/-- UTF-8 encoding of one Unicode scalar value as bytes. -/
def utf8EncodeChar (c : Nat) : List Nat :=
  if c < 128 then [c]
  else if c < 2048 then [192 + c / 64, 128 + c % 64]
  else if c < 65536 then [224 + c / 4096, 128 + c / 64 % 64, 128 + c % 64]
  else [240 + c / 262144, 128 + c / 4096 % 64, 128 + c / 64 % 64, 128 + c % 64]

/-- UTF-8 encoding of a string (list of scalar values) as bytes. -/
def utf8Encode (s : List Nat) : List Nat :=
  s.flatMap utf8EncodeChar

/-- Number of continuation bytes announced by a UTF-8 leading byte. -/
def utf8Len (b : Nat) : Nat :=
  if b < 128 then 0 else if b < 224 then 1 else if b < 240 then 2 else 3

/-- Scalar value of a leading byte together with its continuation bytes. -/
def utf8Val (b : Nat) (cont : List Nat) : Nat :=
  match cont with
  | [] => b
  | [b1] => (b - 192) * 64 + (b1 - 128)
  | [b1, b2] => (b - 224) * 4096 + (b1 - 128) * 64 + (b2 - 128)
  | b1 :: b2 :: b3 :: _ =>
    (b - 240) * 262144 + (b1 - 128) * 4096 + (b2 - 128) * 64 + (b3 - 128)

/-- UTF-8 decoding of a byte list back to scalar values (as a decoder for
well-formed encodings; an ill-formed truncated tail is dropped). -/
def utf8Decode (l : List Nat) : List Nat :=
  match l with
  | [] => []
  | b :: rest =>
    if rest.length < utf8Len b then []
    else utf8Val b (rest.take (utf8Len b)) :: utf8Decode (rest.drop (utf8Len b))
termination_by l.length
decreasing_by simp; omega

/-- Bytes serialized verbatim by the urlencoded serializer:
ASCII alphanumerics and `*`, `-`, `.`, `_`. -/
def isUrlUnreserved (b : Nat) : Bool :=
  decide ((48 ≤ b ∧ b ≤ 57) ∨ (65 ≤ b ∧ b ≤ 90) ∨ (97 ≤ b ∧ b ≤ 122) ∨
    b = 42 ∨ b = 45 ∨ b = 46 ∨ b = 95)

/-- Uppercase hexadecimal digit for a value below 16. -/
def hexDigit (n : Nat) : Nat :=
  if n < 10 then 48 + n else 55 + n

/-- Value of a hexadecimal digit codepoint. -/
def hexVal (c : Nat) : Nat :=
  if 48 ≤ c ∧ c ≤ 57 then c - 48
  else if 65 ≤ c ∧ c ≤ 70 then c - 55
  else if 97 ≤ c ∧ c ≤ 102 then c - 87
  else 0

/-- Percent-encoding of one byte: space becomes `+`, unreserved bytes pass
through, everything else becomes `%XY` with uppercase hex. -/
def encByte (b : Nat) : List Nat :=
  if b = 32 then [43]
  else if isUrlUnreserved b then [b]
  else [37, hexDigit (b / 16), hexDigit (b % 16)]

/-- Percent-decoding of a query component back to bytes (as a decoder for
well-formed encodings; a trailing truncated escape is dropped). -/
def decBytes : List Nat → List Nat
  | [] => []
  | c :: rest =>
    if c = 43 then 32 :: decBytes rest
    else if c = 37 then
      match rest with
      | [] => []
      | [_] => []
      | h :: lo :: rest2 => (hexVal h * 16 + hexVal lo) :: decBytes rest2
    else c :: decBytes rest

/-- Serialization of one string into a query component. -/
def encodeComponent (s : List Nat) : List Nat :=
  (utf8Encode s).flatMap encByte

/-- Decoding of one query component back to a string. -/
def decodeComponent (q : List Nat) : List Nat :=
  utf8Decode (decBytes q)

/-- One serialized `key=value` pair. -/
def serializePair (p : List Nat × List Nat) : List Nat :=
  encodeComponent p.1 ++ [61] ++ encodeComponent p.2

/-- Lists joined by a separator element. -/
def joinSep (sep : Nat) : List (List Nat) → List Nat
  | [] => []
  | [p] => p
  | p :: q :: rest => p ++ sep :: joinSep sep (q :: rest)

/-- The full query string: pairs joined by `&`. -/
def serializeQuery (l : List (List Nat × List Nat)) : List Nat :=
  joinSep 38 (l.map serializePair)

/-- The query string `buildUrl` produces for the given parameter mapping:
drop `undefined` entries, stringify, serialize. -/
def buildQueryString (params : List (List Nat × PVal)) : List Nat :=
  serializeQuery (definedParams params)

/-- Split a list on every occurrence of `sep` (always at least one part). -/
def splitSep (sep : Nat) : List Nat → List (List Nat)
  | [] => [[]]
  | c :: rest =>
    if c = sep then [] :: splitSep sep rest
    else
      match splitSep sep rest with
      | [] => [[c]]
      | p :: ps => (c :: p) :: ps

/-- Split a pair at the first `=`; a pair without `=` has an empty value. -/
def splitFirstEq : List Nat → List Nat × List Nat
  | [] => ([], [])
  | c :: rest =>
    if c = 61 then ([], rest)
    else
      let s := splitFirstEq rest
      (c :: s.1, s.2)

/-- Parse one `key=value` pair. -/
def parsePair (p : List Nat) : List Nat × List Nat :=
  let s := splitFirstEq p
  (decodeComponent s.1, decodeComponent s.2)

/-- Parse a query string back into its key/value pairs, in order
(`new URLSearchParams(qs)` semantics; empty string is the empty list). -/
def parseQuery (q : List Nat) : List (List Nat × List Nat) :=
  if q = [] then [] else (splitSep 38 q).map parsePair

/-- A Unicode scalar value: a valid, non-surrogate codepoint (JavaScript
strings are converted to scalar values before url-encoding). -/
def ValidCp (c : Nat) : Prop :=
  c < 1114112 ∧ ¬ (55296 ≤ c ∧ c < 57344)

/-- Every codepoint of a string is a scalar value. -/
def ValidStr (s : List Nat) : Prop :=
  ∀ c ∈ s, ValidCp c

/-- A query-parameter value whose string form is a scalar-value string. -/
def ValidPVal : PVal → Prop
  | .pstr s => ValidStr s
  | _ => True

instance : DecidablePred ValidCp := fun c => by
  unfold ValidCp; infer_instance

instance (s : List Nat) : Decidable (ValidStr s) := by
  unfold ValidStr; infer_instance

instance (v : PVal) : Decidable (ValidPVal v) := by
  cases v <;> (unfold ValidPVal; infer_instance)

/-- A fetch outcome that fails with a retryable error. -/
def RetryableFail (o : FetchOutcome) : Prop :=
  ∃ t, stepResult o = .error t ∧ shouldRetry t = true

/-- The header-construction rule as §4.1 step 2 of the specification words
it, for comparison with `buildHeaders`: an effective key forces the
`Authorization` entry; every other lookup goes per-call headers first,
then client defaults, then the content-type literal. -/
def headersSpec (cfg : ResolvedConfig)
    (customHeaders : Option (String → Option String)) (apiKey : Option String)
    (k : String) : Option String :=
  let eff := jsOrStr apiKey cfg.apiKey
  if k = "Authorization" ∧ eff ≠ "" then some ("Bearer " ++ eff)
  else
    match (customHeaders.getD emptyHeaders) k with
    | some v => some v
    | none =>
      match cfg.headers k with
      | some v => some v
      | none => contentTypeOnly k

/-! ## Supporting lemmas about the retry loop -/

theorem catchRetry_lt {t : Thrown} {a : Nat} {M : Int} (h : catchRetry t a M = true) :
    (a : Int) < M - 1 := by
  cases t with
  | krawlet e =>
    simp only [catchRetry] at h
    split at h
    · simp at h
    · simpa using (Bool.and_eq_true_iff.mp h).1
  | jsError n m =>
    simp only [catchRetry] at h
    simpa using (Bool.and_eq_true_iff.mp h).1

theorem shouldRetry_not_client {e : KrawletError}
    (h : shouldRetry (.krawlet e) = true) :
    ¬ (e.isClientError = true ∧ e.isRateLimitError = false) := by
  rintro ⟨hc, hr⟩
  simp only [shouldRetry, Bool.or_eq_true] at h
  rcases h with h | h
  · simp only [KrawletError.isServerError, decide_eq_true_iff] at h
    simp only [KrawletError.isClientError, decide_eq_true_iff] at hc
    omega
  · rw [hr] at h
    exact Bool.false_ne_true h

theorem catchRetry_of_shouldRetry {t : Thrown} {a : Nat} {M : Int}
    (hs : shouldRetry t = true) (hlt : (a : Int) < M - 1) :
    catchRetry t a M = true := by
  cases t with
  | krawlet e =>
    simp only [catchRetry]
    rw [if_neg]
    · simp [hs, hlt]
    · intro hcl
      exact shouldRetry_not_client hs ⟨hcl.1, by simpa using hcl.2⟩
  | jsError n m =>
    simp [catchRetry, hs, hlt]

theorem requestLoop_attempts_le (M d : Int) :
    ∀ (outcomes : List FetchOutcome) (attempt : Nat) (rl : Option RateLimit)
      (delays : List Int) (le : Option Thrown),
      (requestLoop M d attempt rl delays le outcomes).attempts ≤
        delays.length + (M - attempt).toNat := by
  intro outcomes
  induction outcomes with
  | nil =>
    intro attempt rl delays le
    by_cases hg : (attempt : Int) < M <;> simp [requestLoop, hg]
  | cons o rest ih =>
    intro attempt rl delays le
    by_cases hg : (attempt : Int) < M
    · rcases hstep : stepResult o with t | env
      · by_cases hretry : catchRetry t attempt M = true
        · have hlt := catchRetry_lt hretry
          have hih := ih (attempt + 1) (stepRateLimit o rl)
            (delays ++ [calculateRetryDelay d attempt]) (some t)
          simp only [requestLoop, hg, if_true, hstep, hretry, ite_true]
          simp only [List.length_append, List.length_cons, List.length_nil] at hih
          omega
        · simp [requestLoop, hg, hstep, hretry]
          omega
      · simp [requestLoop, hg, hstep]
        omega
    · simp [requestLoop, hg]

theorem requestLoop_delays_formula (M d : Int) :
    ∀ (outcomes : List FetchOutcome) (attempt : Nat) (rl : Option RateLimit)
      (delays : List Int) (le : Option Thrown),
      delays = (List.range attempt).map (calculateRetryDelay d) →
      (requestLoop M d attempt rl delays le outcomes).delays =
        (List.range (requestLoop M d attempt rl delays le outcomes).delays.length).map
          (calculateRetryDelay d) := by
  intro outcomes
  induction outcomes with
  | nil =>
    intro attempt rl delays le hd
    by_cases hg : (attempt : Int) < M <;>
      simp only [requestLoop, hg, if_true, if_false, ite_true, ite_false] <;>
      (rw [hd]; simp)
  | cons o rest ih =>
    intro attempt rl delays le hd
    by_cases hg : (attempt : Int) < M
    · rcases hstep : stepResult o with t | env
      · by_cases hretry : catchRetry t attempt M = true
        · simp only [requestLoop, hg, if_true, hstep, hretry, ite_true]
          exact ih _ _ _ _ (by rw [hd, List.range_succ, List.map_append]; simp)
        · simp only [requestLoop, hg, if_true, hstep, hretry, ite_false, Bool.false_eq_true]
          rw [hd]; simp
      · simp only [requestLoop, hg, if_true, hstep]
        rw [hd]; simp
    · simp only [requestLoop, hg, ite_false]
      rw [hd]; simp

theorem requestLoop_first_success (M d : Int) :
    ∀ (pre : List FetchOutcome) (r : HttpResponse) (env : Envelope)
      (post : List FetchOutcome) (attempt : Nat) (rl : Option RateLimit)
      (delays : List Int) (le : Option Thrown),
      (∀ o ∈ pre, RetryableFail o) →
      r.ok = true → r.body = some env →
      (attempt : Int) + pre.length < M →
      (requestLoop M d attempt rl delays le (pre ++ .response r :: post)).result = .ok env ∧
      (requestLoop M d attempt rl delays le (pre ++ .response r :: post)).attempts =
        delays.length + pre.length + 1 := by
  intro pre
  induction pre with
  | nil =>
    intro r env post attempt rl delays le hpre hok hbody hM
    simp only [List.length_nil, Nat.cast_zero, add_zero] at hM
    have hstep : stepResult (.response r) = .ok env := by
      simp [stepResult, processResponse, hok, hbody]
    simp [requestLoop, hM, hstep]
  | cons o pre' ih =>
    intro r env post attempt rl delays le hpre hok hbody hM
    obtain ⟨t, hstep, hretry⟩ := hpre o (List.mem_cons_self o pre')
    simp only [List.length_cons] at hM
    push_cast at hM
    have hg : (attempt : Int) < M := by omega
    have hcr : catchRetry t attempt M = true :=
      catchRetry_of_shouldRetry hretry (by omega)
    have hih := ih r env post (attempt + 1) (stepRateLimit o rl)
      (delays ++ [calculateRetryDelay d attempt]) (some t)
      (fun o ho => hpre o (List.mem_cons_of_mem _ ho)) hok hbody
      (by push_cast; omega)
    simp only [List.cons_append, requestLoop, hg, if_true, hstep, hcr, ite_true,
      List.append_eq]
    refine ⟨hih.1, ?_⟩
    rw [hih.2]
    simp only [List.length_append, List.length_cons, List.length_nil]
    omega

theorem requestLoop_all_fail (M d : Int) :
    ∀ (outcomes : List FetchOutcome) (attempt : Nat) (rl : Option RateLimit)
      (delays : List Int) (le : Option Thrown),
      (∀ o ∈ outcomes, ∃ t, stepResult o = .error t) →
      M - attempt ≤ (outcomes.length : Int) →
      ∃ t, (requestLoop M d attempt rl delays le outcomes).result = .err t := by
  intro outcomes
  induction outcomes with
  | nil =>
    intro attempt rl delays le _ hlen
    simp only [List.length_nil, Nat.cast_zero] at hlen
    have hg : ¬ (attempt : Int) < M := by omega
    simp only [requestLoop, hg, ite_false]
    exact ⟨_, rfl⟩
  | cons o rest ih =>
    intro attempt rl delays le hfail hlen
    by_cases hg : (attempt : Int) < M
    · obtain ⟨t, hstep⟩ := hfail o (List.mem_cons_self o rest)
      by_cases hretry : catchRetry t attempt M = true
      · simp only [requestLoop, hg, if_true, hstep, hretry, ite_true]
        exact ih _ _ _ _ (fun o ho => hfail o (List.mem_cons_of_mem _ ho))
          (by simp only [List.length_cons] at hlen; push_cast at hlen ⊢; omega)
      · simp only [requestLoop, hg, if_true, hstep, hretry, ite_false]
        exact ⟨t, rfl⟩
    · simp only [requestLoop, hg, ite_false]
      exact ⟨_, rfl⟩

/-! ## The claims -/

/-- C4: every response with status in 200-299 whose body parses makes the
request loop return the parsed envelope itself, with no further
transformation, no extra sleep and exactly this one further attempt. -/
theorem success_returns_envelope_unmodified :
    ∀ (M d : Int) (attempt : Nat) (rl : Option RateLimit) (delays : List Int)
      (le : Option Thrown) (r : HttpResponse) (rest : List FetchOutcome)
      (env : Envelope),
      (attempt : Int) < M → r.ok = true → r.body = some env →
      requestLoop M d attempt rl delays le (.response r :: rest) =
        { result := .ok env, rateLimit := extractRateLimit r.rlHeaders rl
          delays := delays, attempts := delays.length + 1 } := by
  intro M d attempt rl delays le r rest env hg hok hbody
  have hstep : stepResult (.response r) = .ok env := by
    simp [stepResult, processResponse, hok, hbody]
  simp [requestLoop, hg, hstep, stepRateLimit]

/-- Witness for C4: a 200 response with envelope body at the first attempt
of a default run. -/
theorem success_returns_envelope_unmodified_witness :
    requestLoop 4 1000 0 none [] none
      [.response { status := 200, body := some { success := true, data := some "[]" } }] =
      { result := .ok { success := true, data := some "[]" }, rateLimit := none
        delays := [], attempts := 1 } := by
  have h := success_returns_envelope_unmodified 4 1000 0 none [] none
    { status := 200, body := some { success := true, data := some "[]" } } []
    { success := true, data := some "[]" } (by decide) (by decide) rfl
  simpa using h

/-- C6: a non-2xx response with an unparseable body is classified as a
`KrawletError` with code `UNKNOWN_ERROR`, message `HTTP <status>:
<statusText>` and the response's HTTP status; a non-2xx response whose
body parses as the error envelope yields a `KrawletError` carrying the
envelope's code, message, the HTTP status, the envelope's request id and
its details. -/
theorem error_translation :
    ∀ (r : HttpResponse), r.ok = false →
      (r.body = none →
        processResponse r = .error (.krawlet
          { message := "HTTP " ++ toString r.status ++ ": " ++ r.statusText
            code := "UNKNOWN_ERROR", statusCode := r.status })) ∧
      (∀ (env : Envelope) (ei : ErrInfo) (m : MetaInfo),
        r.body = some env → env.error = some ei → env.meta = some m →
        processResponse r = .error (.krawlet
          { message := ei.message, code := ei.code, statusCode := r.status
            requestId := m.requestId, details := ei.details, response := some env })) := by
  intro r hok
  constructor
  · intro hbody
    simp [processResponse, hok, handleErrorResponse, hbody]
  · intro env ei m hbody herr hmeta
    simp [processResponse, hok, handleErrorResponse, hbody, herr, hmeta]

/-- Witness for C6: both the unparseable-body case (status 503) and the
parsed-envelope case (status 404 with request id and details). -/
theorem error_translation_witness :
    processResponse { status := 503, statusText := "Service Unavailable", body := none } =
      .error (.krawlet { message := "HTTP 503: Service Unavailable"
                         code := "UNKNOWN_ERROR", statusCode := 503 }) ∧
    processResponse { status := 404, statusText := "Not Found"
                      body := some { success := false
                                     error := some { code := "SHOP_NOT_FOUND"
                                                     message := "Shop not found"
                                                     details := some "id=999" }
                                     meta := some { requestId := some "req-1" } } } =
      .error (.krawlet { message := "Shop not found", code := "SHOP_NOT_FOUND"
                         statusCode := 404, requestId := some "req-1"
                         details := some "id=999"
                         response := some { success := false
                                            error := some { code := "SHOP_NOT_FOUND"
                                                            message := "Shop not found"
                                                            details := some "id=999" }
                                            meta := some { requestId := some "req-1" } } }) := by
  constructor
  · exact (error_translation
      { status := 503, statusText := "Service Unavailable", body := none }
      (by decide)).1 rfl
  · exact (error_translation
      { status := 404, statusText := "Not Found"
        body := some { success := false
                       error := some { code := "SHOP_NOT_FOUND"
                                       message := "Shop not found"
                                       details := some "id=999" }
                       meta := some { requestId := some "req-1" } } }
      (by decide)).2 _ _ _ rfl rfl rfl

/-- C7: the derived predicates of a `KrawletError` hold exactly on the
specified status/code ranges, and the concrete 404 `SHOP_NOT_FOUND`
scenario raises a typed error with that code, status 404, which is a
client error and not a rate-limit error. -/
theorem error_predicates :
    (∀ e : KrawletError,
      (e.isClientError = true ↔ 400 ≤ e.statusCode ∧ e.statusCode < 500) ∧
      (e.isServerError = true ↔ 500 ≤ e.statusCode) ∧
      (e.isRateLimitError = true ↔
        e.statusCode = 429 ∨ e.code = "RATE_LIMIT_EXCEEDED")) ∧
    ((request (resolveConfig { baseUrl := "https://api.krawlet.cc" }) none
        [.response { status := 404, statusText := "Not Found"
                     body := some { success := false
                                    error := some { code := "SHOP_NOT_FOUND"
                                                    message := "Shop not found" }
                                    meta := some {} } }]).result =
      .err (.krawlet { message := "Shop not found", code := "SHOP_NOT_FOUND"
                       statusCode := 404
                       response := some { success := false
                                          error := some { code := "SHOP_NOT_FOUND"
                                                          message := "Shop not found" }
                                          meta := some {} } }) ∧
     KrawletError.isClientError { message := "Shop not found", code := "SHOP_NOT_FOUND"
                                  statusCode := 404 } = true ∧
     KrawletError.isRateLimitError { message := "Shop not found", code := "SHOP_NOT_FOUND"
                                     statusCode := 404 } = false) := by
  refine ⟨fun e => ⟨?_, ?_, ?_⟩, by decide, by decide, by decide⟩
  · simp [KrawletError.isClientError]
  · simp [KrawletError.isServerError]
  · simp [KrawletError.isRateLimitError]

/-- C5: a 400 response whose error envelope carries a non-rate-limit code
makes `request` perform exactly one network attempt and fail at once with
the typed error — no retry sleep — whatever the retry flag and (nonnegative)
retry budget are. -/
theorem client_error_fails_immediately :
    ∀ (cfg : ResolvedConfig) (rl0 : Option RateLimit) (r : HttpResponse)
      (rest : List FetchOutcome) (env : Envelope) (ei : ErrInfo) (m : MetaInfo),
      0 ≤ cfg.maxRetries →
      r.status = 400 → r.body = some env → env.error = some ei → env.meta = some m →
      ei.code ≠ "RATE_LIMIT_EXCEEDED" →
      request cfg rl0 (.response r :: rest) =
        { result := .err (.krawlet { message := ei.message, code := ei.code
                                     statusCode := 400, requestId := m.requestId
                                     details := ei.details, response := some env })
          rateLimit := extractRateLimit r.rlHeaders rl0
          delays := [], attempts := 1 } := by
  intro cfg rl0 r rest env ei m hmr hstatus hbody herr hmeta hcode
  have hok : r.ok = false := by simp [HttpResponse.ok, hstatus]
  have hstep : stepResult (.response r) = .error (.krawlet
      { message := ei.message, code := ei.code, statusCode := 400
        requestId := m.requestId, details := ei.details, response := some env }) := by
    simp only [stepResult, processResponse, hok, Bool.false_eq_true, ite_false,
      handleErrorResponse, hbody, herr, hmeta, hstatus]
  have hcr : catchRetry (.krawlet
      { message := ei.message, code := ei.code, statusCode := 400
        requestId := m.requestId, details := ei.details, response := some env })
      0 (if cfg.enableRetry then cfg.maxRetries + 1 else 1) = false := by
    simp only [catchRetry]
    rw [if_pos]
    · constructor
      · simp [KrawletError.isClientError]
      · simp [KrawletError.isRateLimitError, hcode]
  have hg : (0 : Int) < (if cfg.enableRetry then cfg.maxRetries + 1 else 1) := by
    split <;> omega
  simp only [request, requestLoop, Nat.cast_zero, hg, if_true, hstep, hcr,
    Bool.false_eq_true, ite_false, stepRateLimit, List.length_nil]

/-- Witness for C5: the 400 `BAD_REQUEST` response against the default
configuration is propagated after a single attempt with no sleeps. -/
theorem client_error_fails_immediately_witness :
    request (resolveConfig { baseUrl := "https://api.krawlet.cc" }) none
      [.response { status := 400, statusText := "Bad Request"
                   body := some { success := false
                                  error := some { code := "BAD_REQUEST"
                                                  message := "bad" }
                                  meta := some {} } }] =
      { result := .err (.krawlet { message := "bad", code := "BAD_REQUEST"
                                   statusCode := 400
                                   response := some { success := false
                                                      error := some { code := "BAD_REQUEST"
                                                                      message := "bad" }
                                                      meta := some {} } })
        rateLimit := none, delays := [], attempts := 1 } := by
  have h := client_error_fails_immediately
    (resolveConfig { baseUrl := "https://api.krawlet.cc" }) none
    { status := 400, statusText := "Bad Request"
      body := some { success := false
                     error := some { code := "BAD_REQUEST", message := "bad" }
                     meta := some {} } }
    [] { success := false
         error := some { code := "BAD_REQUEST", message := "bad" }
         meta := some {} }
    { code := "BAD_REQUEST", message := "bad" } {}
    (by decide) rfl rfl rfl rfl (by decide)
  simpa using h

/-- C10: every falsy config field is replaced by its default — timeout 0
becomes 30000, maxRetries 0 becomes 3 (so with retry enabled up to 4
attempts occur), retryDelay 0 becomes 1000, an empty-string apiKey acts as
no key (no `Authorization` header) — and only `enableRetry` distinguishes
`false` from unset. -/
theorem falsy_config_defaults :
    (∀ c : HttpClientConfig,
      (c.timeout = some 0 → (resolveConfig c).timeout = 30000) ∧
      (c.maxRetries = some 0 → (resolveConfig c).maxRetries = 3) ∧
      (c.retryDelay = some 0 → (resolveConfig c).retryDelay = 1000) ∧
      (c.apiKey = some "" → (resolveConfig c).apiKey = "") ∧
      (c.enableRetry = none → (resolveConfig c).enableRetry = true) ∧
      (c.enableRetry = some true → (resolveConfig c).enableRetry = true) ∧
      (c.enableRetry = some false → (resolveConfig c).enableRetry = false)) ∧
    (∀ c : HttpClientConfig, c.apiKey = some "" →
      buildHeaders (resolveConfig c) none none "Authorization" =
        (resolveConfig c).headers "Authorization") ∧
    ((request (resolveConfig { baseUrl := "https://api.krawlet.cc", maxRetries := some 0 })
        none (List.replicate 6 (.response
          { status := 500, statusText := "Internal"
            body := some { success := false
                           error := some { code := "INTERNAL", message := "boom" }
                           meta := some {} } }))).attempts = 4) := by
  refine ⟨fun c => ⟨?_, ?_, ?_, ?_, ?_, ?_, ?_⟩, fun c hkey => ?_, by decide⟩
  · intro h; simp [resolveConfig, jsOrNum, h]
  · intro h; simp [resolveConfig, jsOrNum, h]
  · intro h; simp [resolveConfig, jsOrNum, h]
  · intro h; simp [resolveConfig, jsOrStr, h]
  · intro h; simp [resolveConfig, h]
  · intro h; simp [resolveConfig, h]
  · intro h; simp [resolveConfig, h]
  · have hak : (resolveConfig c).apiKey = "" := by simp [resolveConfig, jsOrStr, hkey]
    simp only [buildHeaders, hak, jsOrStr, ite_self, ne_eq, not_true_eq_false, ite_false,
      if_neg (by simp : ¬ ("" ≠ ""))]
    simp only [overlay, Option.getD, emptyHeaders, contentTypeOnly]
    cases (resolveConfig c).headers "Authorization" <;> rfl

/-- Witness for C10: a config with all-falsy fields resolves to the
defaults, and the empty api key yields no `Authorization` header. -/
theorem falsy_config_defaults_witness :
    (resolveConfig { baseUrl := "x", apiKey := some "", timeout := some 0
                     maxRetries := some 0, retryDelay := some 0 }).timeout = 30000 ∧
    (resolveConfig { baseUrl := "x", apiKey := some "", timeout := some 0
                     maxRetries := some 0, retryDelay := some 0 }).maxRetries = 3 ∧
    (resolveConfig { baseUrl := "x", apiKey := some "", timeout := some 0
                     maxRetries := some 0, retryDelay := some 0 }).retryDelay = 1000 ∧
    buildHeaders (resolveConfig { baseUrl := "x", apiKey := some "", timeout := some 0
                                  maxRetries := some 0, retryDelay := some 0 })
      none none "Authorization" = none := by
  have h := falsy_config_defaults
  have h1 := h.1 { baseUrl := "x", apiKey := some "", timeout := some 0
                   maxRetries := some 0, retryDelay := some 0 }
  have h2 := h.2.1 { baseUrl := "x", apiKey := some "", timeout := some 0
                     maxRetries := some 0, retryDelay := some 0 } rfl
  exact ⟨h1.1 rfl, h1.2.1 rfl, h1.2.2.1 rfl, by rw [h2]; rfl⟩

/-- C3 counterexample: a present but malformed `X-RateLimit-Limit` header
("abc") does NOT preserve the prior snapshot — it overwrites it, with the
malformed component becoming `NaN` (modelled `none`). -/
theorem rate_limit_malformed_overwrites :
    extractRateLimit { limit := some "abc", remaining := some "99", reset := some "123" }
      (some { limit := some 10, remaining := some 5, reset := some 77 }) =
      some { limit := none, remaining := some 99, reset := some 123 } ∧
    extractRateLimit { limit := some "abc", remaining := some "99", reset := some "123" }
      (some { limit := some 10, remaining := some 5, reset := some 77 }) ≠
      some { limit := some 10, remaining := some 5, reset := some 77 } := by
  constructor
  · rfl
  · decide

/-- C3 (amended): if all three rate-limit headers are present and
non-empty, the snapshot is overwritten with their `parseInt` values
(integer values when they parse as integers, `NaN` — modelled `none` —
for a malformed one) and `getRateLimit` reflects them immediately after
the call; if any of the three is missing or empty, the prior snapshot is
preserved unchanged. -/
theorem rate_limit_extraction :
    (∀ (hs : RlHeaders) (prev : Option RateLimit) (sl sr st : String),
      hs.limit = some sl → hs.remaining = some sr → hs.reset = some st →
      sl ≠ "" → sr ≠ "" → st ≠ "" →
      extractRateLimit hs prev =
        some { limit := jsParseInt sl, remaining := jsParseInt sr
               reset := jsParseInt st }) ∧
    (∀ (hs : RlHeaders) (prev : Option RateLimit),
      (hs.limit = none ∨ hs.limit = some "" ∨ hs.remaining = none ∨
        hs.remaining = some "" ∨ hs.reset = none ∨ hs.reset = some "") →
      extractRateLimit hs prev = prev) ∧
    (∀ (cfg : ResolvedConfig) (rl0 : Option RateLimit) (r : HttpResponse)
      (rest : List FetchOutcome) (env : Envelope),
      0 ≤ cfg.maxRetries → r.ok = true → r.body = some env →
      getRateLimit (request cfg rl0 (.response r :: rest)) =
        extractRateLimit r.rlHeaders rl0) := by
  refine ⟨?_, ?_, ?_⟩
  · intro hs prev sl sr st hl hr ht hsl hsr hst
    simp [extractRateLimit, hl, hr, ht, hdrTruthy, hsl, hsr, hst]
  · intro hs prev hcase
    rcases hcase with h | h | h | h | h | h <;> simp [extractRateLimit, h, hdrTruthy]
  · intro cfg rl0 r rest env hmr hok hbody
    have hg : (0 : Int) < (if cfg.enableRetry then cfg.maxRetries + 1 else 1) := by
      split <;> omega
    have hstep : stepResult (.response r) = .ok env := by
      simp [stepResult, processResponse, hok, hbody]
    simp [request, getRateLimit, requestLoop, hg, hstep, stepRateLimit]

/-- Witness for C3 (amended): valid headers overwrite with the parsed
integers; a missing header preserves the prior snapshot; after a call
whose response carries valid headers, `getRateLimit` returns them. -/
theorem rate_limit_extraction_witness :
    extractRateLimit { limit := some "5000", remaining := some "4999", reset := some "1737334800" }
      none = some { limit := some 5000, remaining := some 4999, reset := some 1737334800 } ∧
    extractRateLimit { limit := none, remaining := some "4999", reset := some "1737334800" }
      (some { limit := some 1, remaining := some 2, reset := some 3 }) =
      some { limit := some 1, remaining := some 2, reset := some 3 } ∧
    getRateLimit (request (resolveConfig { baseUrl := "https://api.krawlet.cc" }) none
      [.response { status := 200
                   rlHeaders := { limit := some "5000", remaining := some "4999"
                                  reset := some "1737334800" }
                   body := some { success := true, data := some "[]" } }]) =
      some { limit := some 5000, remaining := some 4999, reset := some 1737334800 } := by
  refine ⟨?_, ?_, ?_⟩
  · have h := rate_limit_extraction.1
      { limit := some "5000", remaining := some "4999", reset := some "1737334800" }
      none "5000" "4999" "1737334800" rfl rfl rfl (by decide) (by decide) (by decide)
    rw [h]; rfl
  · exact rate_limit_extraction.2.1
      { limit := none, remaining := some "4999", reset := some "1737334800" }
      (some { limit := some 1, remaining := some 2, reset := some 3 })
      (Or.inl rfl)
  · have h := rate_limit_extraction.2.2
      (resolveConfig { baseUrl := "https://api.krawlet.cc" }) none
      { status := 200
        rlHeaders := { limit := some "5000", remaining := some "4999"
                       reset := some "1737334800" }
        body := some { success := true, data := some "[]" } }
      [] { success := true, data := some "[]" }
      (by decide) (by decide) rfl
    rw [h]; rfl

/-- C8: the headers sent are exactly those obtained by starting from the
content-type literal, overlaying the client default headers, overlaying
the per-call headers, and finally forcing `Authorization: Bearer <key>`
when an effective key (per-call override, else client key) exists; with
no effective key, no `Authorization` entry is added. -/
theorem headers_construction :
    ∀ (cfg : ResolvedConfig) (customHeaders : Option (String → Option String))
      (apiKey : Option String) (k : String),
      buildHeaders cfg customHeaders apiKey k = headersSpec cfg customHeaders apiKey k := by
  intro cfg customHeaders apiKey k
  simp only [buildHeaders, headersSpec]
  by_cases hkey : jsOrStr apiKey cfg.apiKey = ""
  · rw [if_neg (by simp [hkey]), if_neg (by simp [hkey])]
    simp only [overlay]
  · rw [if_pos hkey]
    by_cases hk : k = "Authorization"
    · rw [if_pos ⟨hk, hkey⟩]
      simp [recSet, hk]
    · rw [if_neg (by simp [hk])]
      simp only [recSet, if_neg hk, overlay]

/-- C1: retry classification of every failed attempt — a 4xx typed error
that is not a rate-limit error is never retried and propagates at once; a
rate-limit error (status 429 or the rate-limit code), a server error
(status ≥ 500) and a transport failure (abort or network error) are
retryable, and do retry while budget remains; and when every attempt
fails, the run terminates with an error propagated to the caller. -/
theorem retry_classification :
    (∀ (e : KrawletError) (M d : Int) (attempt : Nat) (rl : Option RateLimit)
      (delays : List Int) (le : Option Thrown) (o : FetchOutcome)
      (rest : List FetchOutcome),
      e.isClientError = true → e.isRateLimitError = false →
      (attempt : Int) < M → stepResult o = .error (.krawlet e) →
      shouldRetry (.krawlet e) = false ∧
      requestLoop M d attempt rl delays le (o :: rest) =
        { result := .err (.krawlet e), rateLimit := stepRateLimit o rl
          delays := delays, attempts := delays.length + 1 }) ∧
    (∀ e : KrawletError, e.statusCode = 429 ∨ e.code = "RATE_LIMIT_EXCEEDED" →
      shouldRetry (.krawlet e) = true) ∧
    (∀ e : KrawletError, 500 ≤ e.statusCode → shouldRetry (.krawlet e) = true) ∧
    (∀ name message : String,
      name = "AbortError" ∨ strContains message "fetch" = true →
      shouldRetry (.jsError name message) = true) ∧
    (∀ (M d : Int) (attempt : Nat) (rl : Option RateLimit) (delays : List Int)
      (le : Option Thrown) (o : FetchOutcome) (rest : List FetchOutcome)
      (t : Thrown),
      (attempt : Int) < M - 1 → stepResult o = .error t → shouldRetry t = true →
      requestLoop M d attempt rl delays le (o :: rest) =
        requestLoop M d (attempt + 1) (stepRateLimit o rl)
          (delays ++ [calculateRetryDelay d attempt]) (some t) rest) ∧
    (∀ (M d : Int) (outcomes : List FetchOutcome) (attempt : Nat)
      (rl : Option RateLimit) (delays : List Int) (le : Option Thrown),
      (∀ o ∈ outcomes, ∃ t, stepResult o = .error t) →
      M - attempt ≤ (outcomes.length : Int) →
      ∃ t, (requestLoop M d attempt rl delays le outcomes).result = .err t) := by
  refine ⟨?_, ?_, ?_, ?_, ?_, ?_⟩
  · intro e M d attempt rl delays le o rest hc hr hg hstep
    have hsr : shouldRetry (.krawlet e) = false := by
      simp only [KrawletError.isClientError, decide_eq_true_iff] at hc
      simp only [shouldRetry, Bool.or_eq_false_iff]
      constructor
      · simp only [KrawletError.isServerError, decide_eq_false_iff_not]
        omega
      · exact hr
    have hcr : catchRetry (.krawlet e) attempt M = false := by
      simp only [catchRetry]
      rw [if_pos ⟨hc, by simp [hr]⟩]
    refine ⟨hsr, ?_⟩
    simp [requestLoop, hg, hstep, hcr]
  · intro e h
    simp [shouldRetry, KrawletError.isRateLimitError, h]
  · intro e h
    simp [shouldRetry, KrawletError.isServerError, h]
  · intro name message h
    rcases h with h | h <;> simp [shouldRetry, h]
  · intro M d attempt rl delays le o rest t hlt hstep hsr
    have hg : (attempt : Int) < M := by omega
    have hcr : catchRetry t attempt M = true := catchRetry_of_shouldRetry hsr hlt
    simp [requestLoop, hg, hstep, hcr]
  · exact fun M d outcomes attempt rl delays le hfail hlen =>
      requestLoop_all_fail M d outcomes attempt rl delays le hfail hlen

/-- Witness for C1: a 404 typed error is not retried and propagates at
once; a run of four failing 500 responses ends in a propagated error. -/
theorem retry_classification_witness :
    shouldRetry (.krawlet { message := "nf", code := "NOT_FOUND", statusCode := 404
                            response := some { success := false
                                               error := some { code := "NOT_FOUND"
                                                               message := "nf" }
                                               meta := some {} } }) = false ∧
    requestLoop 4 1000 0 none [] none
      [.response { status := 404, statusText := "NF"
                   body := some { success := false
                                  error := some { code := "NOT_FOUND", message := "nf" }
                                  meta := some {} } }] =
      { result := .err (.krawlet { message := "nf", code := "NOT_FOUND", statusCode := 404
                                   response := some { success := false
                                                      error := some { code := "NOT_FOUND"
                                                                      message := "nf" }
                                                      meta := some {} } })
        rateLimit := none, delays := [], attempts := 1 } ∧
    (∃ t, (requestLoop 4 1000 0 none [] none (List.replicate 4 (.transportError
      "TypeError" "failed to fetch"))).result = .err t) := by
  have h := retry_classification
  have ha := h.1 { message := "nf", code := "NOT_FOUND", statusCode := 404
                   response := some { success := false
                                      error := some { code := "NOT_FOUND"
                                                      message := "nf" }
                                      meta := some {} } }
    4 1000 0 none [] none
    (.response { status := 404, statusText := "NF"
                 body := some { success := false
                                error := some { code := "NOT_FOUND", message := "nf" }
                                meta := some {} } })
    [] (by decide) (by decide) (by decide) rfl
  refine ⟨ha.1, by rw [ha.2]; rfl, ?_⟩
  exact h.2.2.2.2.2 4 1000 (List.replicate 4 (.transportError "TypeError" "failed to fetch"))
    0 none [] none
    (by intro o ho; simp only [List.mem_replicate] at ho
        exact ⟨.jsError "TypeError" "failed to fetch", by rw [ho.2]; rfl⟩)
    (by simp)

/-- C2: with retry enabled the number of network attempts never exceeds
`1 + maxRetries`; the n-th back-off sleep is exactly
`retryDelay * 2 ^ n`; the call returns the parsed success envelope as
soon as an attempt within the budget yields a 2xx response (all earlier
attempts having failed retryably); with retry disabled exactly one
attempt occurs. -/
theorem retry_budget_and_backoff :
    ∀ (cfg : ResolvedConfig) (rl0 : Option RateLimit) (outcomes : List FetchOutcome),
      (cfg.enableRetry = true → 0 ≤ cfg.maxRetries →
        ((request cfg rl0 outcomes).attempts : Int) ≤ 1 + cfg.maxRetries) ∧
      ((request cfg rl0 outcomes).delays =
        (List.range (request cfg rl0 outcomes).delays.length).map
          (calculateRetryDelay cfg.retryDelay)) ∧
      (∀ (pre : List FetchOutcome) (r : HttpResponse) (env : Envelope)
        (post : List FetchOutcome),
        outcomes = pre ++ .response r :: post →
        (∀ o ∈ pre, RetryableFail o) →
        r.ok = true → r.body = some env →
        cfg.enableRetry = true → (pre.length : Int) < cfg.maxRetries + 1 →
        (request cfg rl0 outcomes).result = .ok env ∧
        (request cfg rl0 outcomes).attempts = pre.length + 1) ∧
      (cfg.enableRetry = false → outcomes ≠ [] →
        (request cfg rl0 outcomes).attempts = 1) := by
  intro cfg rl0 outcomes
  refine ⟨?_, ?_, ?_, ?_⟩
  · intro her hmr
    have hle := requestLoop_attempts_le (if cfg.enableRetry then cfg.maxRetries + 1 else 1)
      cfg.retryDelay outcomes 0 rl0 [] none
    rw [her] at hle
    simp only [if_true, List.length_nil, Nat.cast_zero, sub_zero, zero_add] at hle
    simp only [request, her, if_true]
    omega
  · have h := requestLoop_delays_formula (if cfg.enableRetry then cfg.maxRetries + 1 else 1)
      cfg.retryDelay outcomes 0 rl0 [] none (by simp)
    simpa [request] using h
  · intro pre r env post houtcomes hpre hok hbody her hlen
    subst houtcomes
    have h := requestLoop_first_success (if cfg.enableRetry then cfg.maxRetries + 1 else 1)
      cfg.retryDelay pre r env post 0 rl0 [] none hpre hok hbody
      (by rw [her]; simpa using hlen)
    exact ⟨h.1, by simpa [request] using h.2⟩
  · intro her hne
    cases outcomes with
    | nil => exact absurd rfl hne
    | cons o rest =>
      have hg : ((0 : Nat) : Int) < 1 := by omega
      rcases hstep : stepResult o with t | env
      · have hcr : catchRetry t 0 1 = false := by
          cases t <;> simp [catchRetry]
        simp [request, her, requestLoop, hg, hstep, hcr]
      · simp [request, her, requestLoop, hg, hstep]

/-- Witness for C2: a 500 failure followed by a 200 success under the
default configuration gives the success envelope after exactly two
attempts with a single base-delay sleep, within the budget of four. -/
theorem retry_budget_and_backoff_witness :
    ((request (resolveConfig { baseUrl := "https://api.krawlet.cc" }) none
        [.response { status := 500, statusText := "Internal"
                     body := some { success := false
                                    error := some { code := "INTERNAL", message := "boom" }
                                    meta := some {} } },
         .response { status := 200, body := some { success := true, data := some "[]" } }]).attempts
      : Int) ≤ 1 + 3 ∧
    (request (resolveConfig { baseUrl := "https://api.krawlet.cc" }) none
        [.response { status := 500, statusText := "Internal"
                     body := some { success := false
                                    error := some { code := "INTERNAL", message := "boom" }
                                    meta := some {} } },
         .response { status := 200, body := some { success := true, data := some "[]" } }]).result =
      .ok { success := true, data := some "[]" } ∧
    (request (resolveConfig { baseUrl := "https://api.krawlet.cc" }) none
        [.response { status := 500, statusText := "Internal"
                     body := some { success := false
                                    error := some { code := "INTERNAL", message := "boom" }
                                    meta := some {} } },
         .response { status := 200, body := some { success := true, data := some "[]" } }]).attempts = 2 := by
  have h := retry_budget_and_backoff (resolveConfig { baseUrl := "https://api.krawlet.cc" }) none
    [.response { status := 500, statusText := "Internal"
                 body := some { success := false
                                error := some { code := "INTERNAL", message := "boom" }
                                meta := some {} } },
     .response { status := 200, body := some { success := true, data := some "[]" } }]
  have h3 := h.2.2.1
    [.response { status := 500, statusText := "Internal"
                 body := some { success := false
                                error := some { code := "INTERNAL", message := "boom" }
                                meta := some {} } }]
    { status := 200, body := some { success := true, data := some "[]" } }
    { success := true, data := some "[]" } [] rfl
    (by intro o ho
        simp only [List.mem_singleton] at ho
        exact ⟨.krawlet { message := "boom", code := "INTERNAL", statusCode := 500
                          response := some { success := false
                                             error := some { code := "INTERNAL"
                                                             message := "boom" }
                                             meta := some {} } },
          by rw [ho]; rfl, by decide⟩)
    (by decide) rfl rfl (by decide)
  exact ⟨h.1 rfl (by decide), h3.1, h3.2⟩

/-! ## Supporting lemmas for the query-string round trip (C9) -/

theorem hexVal_hexDigit {n : Nat} (h : n < 16) : hexVal (hexDigit n) = n := by
  simp only [hexDigit, hexVal]
  split_ifs <;> omega

theorem hexDigit_range {n : Nat} (h : n < 16) :
    (48 ≤ hexDigit n ∧ hexDigit n ≤ 57) ∨ (65 ≤ hexDigit n ∧ hexDigit n ≤ 70) := by
  simp only [hexDigit]
  split_ifs <;> omega

theorem encByte_mem_ne {b x : Nat} (hb : b < 256) (hx : x ∈ encByte b) :
    x ≠ 38 ∧ x ≠ 61 := by
  simp only [encByte] at hx
  split_ifs at hx with h32 hunres
  · simp only [List.mem_singleton] at hx
    omega
  · simp only [List.mem_singleton] at hx
    subst hx
    simp only [isUrlUnreserved, decide_eq_true_iff] at hunres
    omega
  · simp only [List.mem_cons, List.mem_singleton, List.not_mem_nil, or_false] at hx
    rcases hx with rfl | rfl | rfl
    · omega
    · have := hexDigit_range (n := b / 16) (by omega)
      omega
    · have := hexDigit_range (n := b % 16) (by omega)
      omega

theorem decBytes_encByte {b : Nat} (hb : b < 256) (cs : List Nat) :
    decBytes (encByte b ++ cs) = b :: decBytes cs := by
  simp only [encByte]
  split_ifs with h32 hunres
  · subst h32
    rw [decBytes.eq_def]
    simp
  · have hfacts : b ≠ 43 ∧ b ≠ 37 := by
      simp only [isUrlUnreserved, decide_eq_true_iff] at hunres
      omega
    rw [decBytes.eq_def]
    simp [hfacts.1, hfacts.2]
  · have h1 : b / 16 < 16 := by omega
    have h2 : b % 16 < 16 := by omega
    rw [decBytes.eq_def]
    simp [hexVal_hexDigit h1, hexVal_hexDigit h2]
    omega

theorem decBytes_flatMap {bs : List Nat} (h : ∀ b ∈ bs, b < 256) :
    decBytes (bs.flatMap encByte) = bs := by
  induction bs with
  | nil => rfl
  | cons b rest ih =>
    rw [List.flatMap_cons, decBytes_encByte (h b (List.mem_cons_self b rest)),
      ih (fun x hx => h x (List.mem_cons_of_mem _ hx))]

theorem utf8EncodeChar_lt {c : Nat} (hc : c < 1114112) :
    ∀ b ∈ utf8EncodeChar c, b < 256 := by
  intro b hb
  simp only [utf8EncodeChar] at hb
  split_ifs at hb <;>
    simp only [List.mem_cons, List.mem_singleton, List.not_mem_nil, or_false] at hb
  · omega
  · rcases hb with rfl | rfl <;> omega
  · rcases hb with rfl | rfl | rfl <;> omega
  · rcases hb with rfl | rfl | rfl | rfl <;> omega

theorem utf8Decode_encodeChar {c : Nat} (hc : c < 1114112) (bs : List Nat) :
    utf8Decode (utf8EncodeChar c ++ bs) = c :: utf8Decode bs := by
  simp only [utf8EncodeChar]
  split_ifs with h1 h2 h3
  · have ha : utf8Len c = 0 := by simp [utf8Len, h1]
    simp only [List.cons_append, List.nil_append]
    rw [utf8Decode.eq_def]
    dsimp only
    rw [ha, if_neg (by omega)]
    simp [utf8Val]
  · have ha : utf8Len (192 + c / 64) = 1 := by unfold utf8Len; split_ifs <;> omega
    simp only [List.cons_append, List.nil_append]
    rw [utf8Decode.eq_def]
    dsimp only
    rw [ha, if_neg (by simp only [List.length_cons]; omega)]
    simp [utf8Val]
    omega
  · have ha : utf8Len (224 + c / 4096) = 2 := by unfold utf8Len; split_ifs <;> omega
    simp only [List.cons_append, List.nil_append]
    rw [utf8Decode.eq_def]
    dsimp only
    rw [ha, if_neg (by simp only [List.length_cons]; omega)]
    simp [utf8Val]
    omega
  · have ha : utf8Len (240 + c / 262144) = 3 := by unfold utf8Len; split_ifs <;> omega
    simp only [List.cons_append, List.nil_append]
    rw [utf8Decode.eq_def]
    dsimp only
    rw [ha, if_neg (by simp only [List.length_cons]; omega)]
    simp [utf8Val]
    omega

theorem utf8Decode_utf8Encode {s : List Nat} (h : ∀ c ∈ s, c < 1114112) :
    utf8Decode (utf8Encode s) = s := by
  induction s with
  | nil =>
    rw [show utf8Encode [] = [] from rfl, utf8Decode.eq_def]
  | cons c rest ih =>
    rw [utf8Encode, List.flatMap_cons,
      utf8Decode_encodeChar (h c (List.mem_cons_self c rest))]
    rw [utf8Encode] at ih
    rw [ih (fun x hx => h x (List.mem_cons_of_mem _ hx))]

theorem utf8Encode_mem_lt {s : List Nat} (hs : ∀ c ∈ s, c < 1114112) :
    ∀ b ∈ utf8Encode s, b < 256 := by
  intro b hb
  simp only [utf8Encode, List.mem_flatMap] at hb
  obtain ⟨c, hc, hbc⟩ := hb
  exact utf8EncodeChar_lt (hs c hc) b hbc

theorem encodeComponent_mem_ne {s : List Nat} (hs : ∀ c ∈ s, c < 1114112) :
    ∀ x ∈ encodeComponent s, x ≠ 38 ∧ x ≠ 61 := by
  intro x hx
  simp only [encodeComponent, List.mem_flatMap] at hx
  obtain ⟨b, hb, hxb⟩ := hx
  exact encByte_mem_ne (utf8Encode_mem_lt hs b hb) hxb

theorem decodeComponent_encodeComponent {s : List Nat} (hs : ∀ c ∈ s, c < 1114112) :
    decodeComponent (encodeComponent s) = s := by
  simp only [decodeComponent, encodeComponent]
  rw [decBytes_flatMap (utf8Encode_mem_lt hs), utf8Decode_utf8Encode hs]

theorem splitFirstEq_append {a : List Nat} (ha : ∀ x ∈ a, x ≠ 61) (b : List Nat) :
    splitFirstEq (a ++ 61 :: b) = (a, b) := by
  induction a with
  | nil => simp [splitFirstEq]
  | cons c rest ih =>
    have hc : c ≠ 61 := ha c (List.mem_cons_self c rest)
    simp only [List.cons_append, splitFirstEq, hc, if_false, ite_false, List.append_eq]
    rw [ih (fun x hx => ha x (List.mem_cons_of_mem _ hx))]

theorem parsePair_serializePair {k v : List Nat}
    (hk : ∀ c ∈ k, c < 1114112) (hv : ∀ c ∈ v, c < 1114112) :
    parsePair (serializePair (k, v)) = (k, v) := by
  simp only [parsePair, serializePair]
  rw [List.append_assoc, List.singleton_append,
    splitFirstEq_append (fun x hx => (encodeComponent_mem_ne hk x hx).2)]
  simp only []
  rw [decodeComponent_encodeComponent hk, decodeComponent_encodeComponent hv]

theorem splitSep_ne_nil (sep : Nat) (l : List Nat) : splitSep sep l ≠ [] := by
  cases l with
  | nil => simp [splitSep]
  | cons c rest =>
    simp only [splitSep]
    split_ifs
    · simp
    · cases h : splitSep sep rest <;> simp

theorem splitSep_sepfree {sep : Nat} {p : List Nat} (hp : ∀ x ∈ p, x ≠ sep) :
    splitSep sep p = [p] := by
  induction p with
  | nil => rfl
  | cons c rest ih =>
    have hc : c ≠ sep := hp c (List.mem_cons_self c rest)
    simp only [splitSep, hc, if_false, ite_false]
    rw [ih (fun x hx => hp x (List.mem_cons_of_mem _ hx))]

theorem splitSep_append {sep : Nat} {p : List Nat} (hp : ∀ x ∈ p, x ≠ sep)
    (l : List Nat) : splitSep sep (p ++ sep :: l) = p :: splitSep sep l := by
  induction p with
  | nil => simp [splitSep]
  | cons c rest ih =>
    have hc : c ≠ sep := hp c (List.mem_cons_self c rest)
    simp only [List.cons_append, splitSep, hc, if_false, ite_false, List.append_eq]
    rw [ih (fun x hx => hp x (List.mem_cons_of_mem _ hx))]

theorem splitSep_joinSep {sep : Nat} :
    ∀ parts : List (List Nat), parts ≠ [] →
      (∀ p ∈ parts, ∀ x ∈ p, x ≠ sep) →
      splitSep sep (joinSep sep parts) = parts := by
  intro parts
  induction parts with
  | nil => intro h; exact absurd rfl h
  | cons p rest ih =>
    intro _ hfree
    cases rest with
    | nil =>
      simpa [joinSep] using splitSep_sepfree (hfree p (List.mem_cons_self p []))
    | cons q rest2 =>
      simp only [joinSep]
      rw [splitSep_append (hfree p (List.mem_cons_self p (q :: rest2))),
        ih (by simp) (fun x hx => hfree x (List.mem_cons_of_mem _ hx))]

theorem serializePair_mem_ne_38 {pair : List Nat × List Nat}
    (hk : ∀ c ∈ pair.1, c < 1114112) (hv : ∀ c ∈ pair.2, c < 1114112) :
    ∀ x ∈ serializePair pair, x ≠ 38 := by
  intro x hx
  simp only [serializePair, List.mem_append, List.mem_singleton] at hx
  rcases hx with (hx | rfl) | hx
  · exact (encodeComponent_mem_ne hk x hx).1
  · omega
  · exact (encodeComponent_mem_ne hv x hx).1

theorem serializeQuery_ne_nil {l : List (List Nat × List Nat)} (h : l ≠ []) :
    serializeQuery l ≠ [] := by
  cases l with
  | nil => exact absurd rfl h
  | cons p rest =>
    cases rest with
    | nil => simp [serializeQuery, joinSep, serializePair]
    | cons q rest2 => simp [serializeQuery, joinSep, serializePair]

theorem parseQuery_serializeQuery {l : List (List Nat × List Nat)}
    (h : ∀ pair ∈ l, (∀ c ∈ pair.1, c < 1114112) ∧ (∀ c ∈ pair.2, c < 1114112)) :
    parseQuery (serializeQuery l) = l := by
  cases hl : l with
  | nil => rfl
  | cons p rest =>
    rw [← hl]
    have hne : serializeQuery l ≠ [] := serializeQuery_ne_nil (by rw [hl]; simp)
    rw [parseQuery, if_neg hne, serializeQuery,
      splitSep_joinSep (l.map serializePair) (by rw [hl]; simp)
        (by intro part hpart
            simp only [List.mem_map] at hpart
            obtain ⟨pair, hpair, rfl⟩ := hpart
            exact serializePair_mem_ne_38 (h pair hpair).1 (h pair hpair).2),
      List.map_map]
    have : ∀ pair ∈ l, (parsePair ∘ serializePair) pair = id pair := by
      intro pair hpair
      obtain ⟨k, v⟩ := pair
      exact parsePair_serializePair (h ⟨k, v⟩ hpair).1 (h ⟨k, v⟩ hpair).2
    rw [List.map_congr_left this, List.map_id]

theorem natDigits_range : ∀ n, ∀ c ∈ natDigits n, 48 ≤ c ∧ c ≤ 57 := by
  intro n
  induction n using Nat.strong_induction_on with
  | _ n ih =>
    intro c hc
    rw [natDigits] at hc
    split_ifs at hc with h
    · simp only [List.mem_singleton] at hc
      omega
    · rw [List.mem_append] at hc
      rcases hc with hc | hc
      · exact ih (n / 10) (Nat.div_lt_self (by omega) (by omega)) c hc
      · simp only [List.mem_singleton] at hc
        omega

theorem jsStringOf_lt {v : PVal} (hv : ValidPVal v) :
    ∀ c ∈ jsStringOf v, c < 1114112 := by
  cases v with
  | pstr s =>
    intro c hc
    exact (hv c hc).1
  | pnum n =>
    simp only [jsStringOf]
    split_ifs
    · intro c hc
      simp only [List.mem_cons] at hc
      rcases hc with rfl | hc
      · omega
      · have := natDigits_range n.natAbs c hc
        omega
    · intro c hc
      have := natDigits_range n.natAbs c hc
      omega
  | pbool b => cases b <;> decide
  | pundef => decide

theorem definedParams_valid {params : List (List Nat × PVal)}
    (h : ∀ p ∈ params, ValidStr p.1 ∧ ValidPVal p.2) :
    ∀ q ∈ definedParams params,
      (∀ c ∈ q.1, c < 1114112) ∧ (∀ c ∈ q.2, c < 1114112) := by
  intro q hq
  simp only [definedParams, List.mem_filterMap] at hq
  obtain ⟨p, hp, hpq⟩ := hq
  obtain ⟨hk, hv⟩ := h p hp
  have hkey : ∀ c ∈ p.1, c < 1114112 := fun c hc => (hk c hc).1
  cases hv2 : p.2 with
  | pstr s =>
    rw [hv2] at hpq
    simp only [Option.some.injEq] at hpq
    subst hpq
    exact ⟨hkey, jsStringOf_lt (by rw [hv2] at hv; exact hv)⟩
  | pnum n =>
    rw [hv2] at hpq
    simp only [Option.some.injEq] at hpq
    subst hpq
    exact ⟨hkey, jsStringOf_lt (by rw [hv2] at hv; exact hv)⟩
  | pbool b =>
    rw [hv2] at hpq
    simp only [Option.some.injEq] at hpq
    subst hpq
    exact ⟨hkey, jsStringOf_lt (by rw [hv2] at hv; exact hv)⟩
  | pundef =>
    rw [hv2] at hpq
    simp at hpq

/-- C9: for every query-parameter mapping whose strings consist of
Unicode scalar values, the query string `buildUrl` produces — exactly the
entries whose value is not `undefined`, each as `key=stringified(value)`
with standard percent-encoding, in iteration order — parses back to
exactly those key/value pairs, in the same order, with `undefined`-valued
keys absent. -/
theorem query_roundtrip :
    ∀ params : List (List Nat × PVal),
      (∀ p ∈ params, ValidStr p.1 ∧ ValidPVal p.2) →
      parseQuery (buildQueryString params) = definedParams params := by
  intro params h
  exact parseQuery_serializeQuery (definedParams_valid h)

/-- Witness for C9: a mapping with a string value containing characters
needing escaping (space, `=`, `&`, a non-ASCII letter and an astral-plane
codepoint), a negative number, an `undefined` entry and a boolean. -/
theorem query_roundtrip_witness :
    parseQuery (buildQueryString
      [([107, 101, 121], .pstr [97, 32, 98, 61, 49, 38, 233, 128976]),
       ([110], .pnum (-5)),
       ([115, 107, 105, 112], .pundef),
       ([102, 108, 97, 103], .pbool true)]) =
    definedParams
      [([107, 101, 121], .pstr [97, 32, 98, 61, 49, 38, 233, 128976]),
       ([110], .pnum (-5)),
       ([115, 107, 105, 112], .pundef),
       ([102, 108, 97, 103], .pbool true)] :=
  query_roundtrip
    [([107, 101, 121], .pstr [97, 32, 98, 61, 49, 38, 233, 128976]),
     ([110], .pnum (-5)),
     ([115, 107, 105, 112], .pundef),
     ([102, 108, 97, 103], .pbool true)]
    (by decide)

end Krawlet
